import Mathlib

/-!
# Verification of the anansi-proxy apimock condition-expression engine

A shallow embedding of the condition-expression engine of the
`pretodev/anansi-proxy` repository: the expression AST
(`pkg/apimock`, file defining `BinaryExpression`, `VariableReference`, …),
the tree-walking evaluator (`Evaluator.Evaluate`,
`Evaluator.EvaluateConditions`, `Evaluator.callBuiltinFunction` and the
helpers around them), and the condition-text front end
(`tokenizeExpression` and the recursive-descent `ExpressionParser`).

Modelling conventions:
* Go `float64` is modelled by `GoFloat`, an exact unnormalized rational
  (`num/den` over `Int`).  Every arithmetic fact proved in this
  development is about small integer values, where IEEE double arithmetic
  is exact, so the model agrees with the source there.
* Go `interface{}` runtime values are modelled by the inductive `Value`,
  with one constructor per dynamic type that the evaluator can actually
  produce or receive (`float64`, `int`, `bool`, `string`,
  `[]interface{}`, `map[string]interface{}`, `map[string]string`,
  `RangeValue`, `*RequestContext`, and the `nil` interface).
* Go maps are modelled as association lists; assignment is the
  order-preserving update `setAssoc`, lookup is `List.lookup`.
* The mutable `*ExecutionContext` receiver is threaded explicitly:
  evaluation takes and returns an `ExecutionContext`.
* Go recursion is modelled with an explicit `fuel` argument; every
  theorem either quantifies over the fuel or instantiates it with a
  value large enough for the concrete input at hand (the Go code
  recurses structurally, so any sufficiently large fuel computes the
  same answer).
* The `math/rand` source owned by the context is modelled by `Rng`, an
  abstract stream of pre-drawn outcomes, and the Go standard-library
  regular-expression matcher used by the `matches` builtin is an oracle
  function stored in the context.
-/

set_option linter.unusedVariables false

namespace Anansi

/-- Go `float64`, modelled as an exact unnormalized rational `num/den`.
`den` is never `0` for values built by this development (literals have
`den = 1`, and the evaluator guards every division by a zero test). -/
structure GoFloat where
  num : Int
  den : Int
deriving DecidableEq

/-- The `float64` a Go integer literal denotes. -/
def GoFloat.ofInt (n : Int) : GoFloat := ⟨n, 1⟩

/-- Go `a + b` on `float64`. -/
def GoFloat.add (a b : GoFloat) : GoFloat :=
  ⟨a.num * b.den + b.num * a.den, a.den * b.den⟩

/-- Go `a - b` on `float64`. -/
def GoFloat.sub (a b : GoFloat) : GoFloat :=
  ⟨a.num * b.den - b.num * a.den, a.den * b.den⟩

/-- Go `a * b` on `float64`. -/
def GoFloat.mul (a b : GoFloat) : GoFloat :=
  ⟨a.num * b.num, a.den * b.den⟩

/-- Go `a / b` on `float64` (the evaluator only calls this after
checking `b != 0`). -/
def GoFloat.div (a b : GoFloat) : GoFloat :=
  ⟨a.num * b.den, a.den * b.num⟩

/-- Go `a == 0` on `float64` (the divide/modulo-by-zero guard). -/
def GoFloat.isZero (a : GoFloat) : Bool :=
  a.num == 0

/-- Value equality of two `float64`s (Go `==`). -/
def GoFloat.beqVal (a b : GoFloat) : Bool :=
  a.num * b.den == b.num * a.den

/-- Go `a < b` on `float64`. -/
def GoFloat.blt (a b : GoFloat) : Bool :=
  if 0 < a.den * b.den then decide (a.num * b.den < b.num * a.den)
  else decide (b.num * a.den < a.num * b.den)

/-- Go `a <= b` on `float64`. -/
def GoFloat.ble (a b : GoFloat) : Bool :=
  if 0 < a.den * b.den then decide (a.num * b.den ≤ b.num * a.den)
  else decide (b.num * a.den ≤ a.num * b.den)

/-- Go `int(f)`: truncation toward zero (as in `Int.div`, which also
truncates toward zero, for either sign of `den`). -/
def GoFloat.trunc (a : GoFloat) : Int :=
  Int.tdiv a.num a.den

/-- `math.Floor(f)` as an integer: rounding toward negative infinity. -/
def GoFloat.floorInt (a : GoFloat) : Int :=
  if 0 < a.den then Int.fdiv a.num a.den else Int.fdiv (-a.num) (-a.den)

/-- `math.Mod(a, b)`: `a - b*trunc(a/b)` (the fmod convention). -/
def GoFloat.fmod (a b : GoFloat) : GoFloat :=
  a.sub (b.mul (GoFloat.ofInt ((a.div b).trunc)))

/-- `AccessType` from the AST (`PropertyAccess` / `IndexAccess`). -/
inductive AccessType where
  | property
  | index
deriving DecidableEq

/-- `Access`: a single `.prop` or `["key"]` step of a reference chain. -/
structure Access where
  type : AccessType
  key : String
deriving DecidableEq

/-- The expression AST (`Expression` and its implementations in the Go
source).  `table` carries both the array and the dictionary fields of
`TableValue` together with its `IsArray` flag; the Go `map[string]Value`
dictionary is an association list here. -/
inductive Expr where
  | binary (left : Expr) (op : String) (right : Expr)
  | unary (op : String) (operand : Expr)
  | attribution (value : Expr) (vars : List String)
  | num (v : GoFloat)
  | bool (v : Bool)
  | str (v : String)
  | table (isArray : Bool) (array : List Expr) (dict : List (String × Expr))
  | range (lo hi : GoFloat)
  | varRef (name : String) (accessPath : List Access)
  | funcCall (target : Option Expr) (name : String) (args : List Expr)

/-- Runtime values: the dynamic types an `interface{}` produced or
consumed by the evaluator can hold.  `req` is a (non-nil)
`*RequestContext` with its five fields inlined; `strMap` is a Go
`map[string]string` (the header and query maps); `nilV` is the nil
interface. -/
inductive Value where
  | num (q : GoFloat)
  | intV (n : Int)
  | bool (b : Bool)
  | str (s : String)
  | arr (elems : List Value)
  | dict (entries : List (String × Value))
  | strMap (entries : List (String × String))
  | rangeV (lo hi : GoFloat)
  | req (method path : String) (query headers : List (String × String)) (body : Value)
  | nilV

/-- The Go `%T` rendering of the dynamic type of a value (used verbatim
inside evaluator error messages). -/
def goTypeName : Value → String
  | .num _ => "float64"
  | .intV _ => "int"
  | .bool _ => "bool"
  | .str _ => "string"
  | .arr _ => "[]interface \x7b\x7d"
  | .dict _ => "map[string]interface \x7b\x7d"
  | .strMap _ => "map[string]string"
  | .rangeV _ _ => "apimock.RangeValue"
  | .req _ _ _ _ _ => "*apimock.RequestContext"
  | .nilV => "<nil>"

/-- The `math/rand` source owned by an `ExecutionContext`, abstracted as
streams of pre-drawn outcomes: `floats` feeds `rand.Float64()` (values
in `[0,1)`) and `ints` feeds `rand.Intn(n)` (reduced `mod n` on use). -/
structure Rng where
  floats : List GoFloat
  ints : List Nat

/-- `rand.Float64()`. -/
def Rng.nextFloat (r : Rng) : GoFloat × Rng :=
  match r.floats with
  | [] => (GoFloat.ofInt 0, r)
  | f :: fs => (f, ⟨fs, r.ints⟩)

/-- `rand.Intn n` (caller guarantees `0 < n`). -/
def Rng.nextIntn (n : Nat) (r : Rng) : Nat × Rng :=
  match r.ints with
  | [] => (0, r)
  | k :: ks => (k % n, ⟨r.floats, ks⟩)

/-- `ExecutionContext`: per-request evaluation state.  `Request` holds
the `interface{}` bound to the base name `request` (a `Value.req` for a
live request).  `regexpMatch` is the oracle for the Go standard-library
`regexp.MatchString` used by the `matches` builtin (an error models an
invalid pattern). -/
structure ExecutionContext where
  CallCount : Int
  Request : Value
  Variables : List (String × Value)
  rand : Rng
  regexpMatch : String → String → Except String Bool

/-- `ConditionLine` from the AST. -/
structure ConditionLine where
  Expression : Expr
  IsOrCondition : Bool
  Line : Int

/-- Assignment into a Go map modelled as an association list:
order-preserving update, appending when the key is fresh. -/
def setAssoc {α : Type} : List (String × α) → String → α → List (String × α)
  | [], k, v => [(k, v)]
  | (k', v') :: rest, k, v =>
    if k' = k then (k, v) :: rest else (k', v') :: setAssoc rest k v

/-- `toFloat64`: numeric coercion used by every arithmetic and ordering
helper (accepts `float64` and `int`; the `int64`/`float32` cases of the
source are dynamic types no value of this model carries). -/
def toFloat64 : Value → Option GoFloat
  | .num q => some q
  | .intV n => some (GoFloat.ofInt n)
  | _ => none

/-- `Evaluator.equals`: `==` comparison.  It switches on the dynamic
type of the left operand; mismatched kinds (and any left operand that is
not `float64`/`string`/`bool` — notably the `int` held by `call_count`)
compare as `false`. -/
def equals (a b : Value) : Bool :=
  match a with
  | .num qa =>
    match toFloat64 b with
    | some qb => qa.beqVal qb
    | none => false
  | .str sa =>
    match b with
    | .str sb => sa == sb
    | _ => false
  | .bool ba =>
    match b with
    | .bool bb => ba == bb
    | _ => false
  | _ => false

/-- `Evaluator.add` (the other arithmetic helpers follow the same
shape). -/
def add (a b : Value) : Except String Value :=
  match toFloat64 a, toFloat64 b with
  | some x, some y => .ok (.num (x.add y))
  | _, _ => .error "+ operator requires numeric operands"

/-- `Evaluator.subtract`. -/
def subtract (a b : Value) : Except String Value :=
  match toFloat64 a, toFloat64 b with
  | some x, some y => .ok (.num (x.sub y))
  | _, _ => .error "- operator requires numeric operands"

/-- `Evaluator.multiply`. -/
def multiply (a b : Value) : Except String Value :=
  match toFloat64 a, toFloat64 b with
  | some x, some y => .ok (.num (x.mul y))
  | _, _ => .error "* operator requires numeric operands"

/-- `Evaluator.divide` (zero divisor is an error). -/
def divide (a b : Value) : Except String Value :=
  match toFloat64 a, toFloat64 b with
  | some x, some y =>
    if y.isZero then .error "division by zero" else .ok (.num (x.div y))
  | _, _ => .error "/ operator requires numeric operands"

/-- `Evaluator.modulo` (`math.Mod`; zero divisor is an error). -/
def modulo (a b : Value) : Except String Value :=
  match toFloat64 a, toFloat64 b with
  | some x, some y =>
    if y.isZero then .error "modulo by zero" else .ok (.num (x.fmod y))
  | _, _ => .error "% operator requires numeric operands"

/-- `Evaluator.integerDivide` (`math.Floor(a/b)`; zero divisor is an
error). -/
def integerDivide (a b : Value) : Except String Value :=
  match toFloat64 a, toFloat64 b with
  | some x, some y =>
    if y.isZero then .error "division by zero"
    else .ok (.num (GoFloat.ofInt (x.div y).floorInt))
  | _, _ => .error "// operator requires numeric operands"

/-- `Evaluator.greaterThan` (and the three helpers below: ordering
requires numeric operands). -/
def greaterThan (a b : Value) : Except String Value :=
  match toFloat64 a, toFloat64 b with
  | some x, some y => .ok (.bool (y.blt x))
  | _, _ => .error "> operator requires numeric operands"

/-- `Evaluator.lessThan`. -/
def lessThan (a b : Value) : Except String Value :=
  match toFloat64 a, toFloat64 b with
  | some x, some y => .ok (.bool (x.blt y))
  | _, _ => .error "< operator requires numeric operands"

/-- `Evaluator.greaterThanOrEqual`. -/
def greaterThanOrEqual (a b : Value) : Except String Value :=
  match toFloat64 a, toFloat64 b with
  | some x, some y => .ok (.bool (y.ble x))
  | _, _ => .error ">= operator requires numeric operands"

/-- `Evaluator.lessThanOrEqual`. -/
def lessThanOrEqual (a b : Value) : Except String Value :=
  match toFloat64 a, toFloat64 b with
  | some x, some y => .ok (.bool (x.ble y))
  | _, _ => .error "<= operator requires numeric operands"

/-- The `fmt.Sprintf("%v", ·)` rendering used by the `..` concatenation
operator.  Scalar shapes are rendered as Go does (for the integral
floats this development manipulates); the rendering of composite values
is a placeholder, as no condition proved about below ever concatenates
one. -/
def goFmtValue : Value → String
  | .num q => if q.den = 1 then toString q.num else toString q.num ++ "/" ++ toString q.den
  | .intV n => toString n
  | .bool b => if b then "true" else "false"
  | .str s => s
  | v => goTypeName v

/-- The operator dispatch of `Evaluator.evaluateBinaryExpression`,
applied once both operands have been evaluated. -/
def evaluateBinaryOp (op : String) (left right : Value) : Except String Value :=
  if op = "+" then add left right
  else if op = "-" then subtract left right
  else if op = "*" then multiply left right
  else if op = "/" then divide left right
  else if op = "%" then modulo left right
  else if op = "//" then integerDivide left right
  else if op = "==" then .ok (.bool (equals left right))
  else if op = "!=" then .ok (.bool (!equals left right))
  else if op = ">" then greaterThan left right
  else if op = "<" then lessThan left right
  else if op = ">=" then greaterThanOrEqual left right
  else if op = "<=" then lessThanOrEqual left right
  else if op = ".." then .ok (.str (goFmtValue left ++ goFmtValue right))
  else if op = "and" then
    match left, right with
    | .bool lb, .bool rb => .ok (.bool (lb && rb))
    | _, _ => .error "and operator requires boolean operands"
  else if op = "or" then
    match left, right with
    | .bool lb, .bool rb => .ok (.bool (lb || rb))
    | _, _ => .error "or operator requires boolean operands"
  else .error ("unknown binary operator: " ++ op)

/-- The operator dispatch of `Evaluator.evaluateUnaryExpression`. -/
def evaluateUnaryOp (op : String) (operand : Value) : Except String Value :=
  if op = "not" then
    match operand with
    | .bool b => .ok (.bool (!b))
    | v => .error ("not operator requires boolean operand, got " ++ goTypeName v)
  else .error ("unknown unary operator: " ++ op)

/-- `Evaluator.getProperty`: dot access.  A missing key of a
`map[string]interface{}` is the nil interface, a missing key of a
`map[string]string` is the empty string, a `*RequestContext` exposes its
five fields by name, and every other receiver yields nil. -/
def getProperty (obj : Value) (key : String) : Value :=
  match obj with
  | .dict m => (m.lookup key).getD .nilV
  | .strMap m => .str ((m.lookup key).getD "")
  | .req method path query headers body =>
    if key = "method" then .str method
    else if key = "path" then .str path
    else if key = "query" then .strMap query
    else if key = "headers" then .strMap headers
    else if key = "body" then body
    else .nilV
  | _ => .nilV

/-- `strconv.Atoi`, on the tokens this front end produces (an optional
`-` sign followed by decimal digits; Go additionally accepts a `+` sign,
which no lexer token carries). -/
def goAtoi (s : String) : Option Int :=
  match s.data with
  | [] => none
  | '-' :: ds =>
    if ds ≠ [] ∧ ds.all Char.isDigit
    then some (-(ds.foldl (fun acc c => acc * 10 + (c.toNat - 48)) 0 : Nat))
    else none
  | ds =>
    if ds.all Char.isDigit
    then some ((ds.foldl (fun acc c => acc * 10 + (c.toNat - 48)) 0 : Nat))
    else none

/-- `Evaluator.getIndex`: bracket access.  Maps behave as in
`getProperty`; a `[]interface{}` accepts a numeric key inside bounds and
yields nil otherwise; every other receiver yields nil. -/
def getIndex (obj : Value) (key : String) : Value :=
  match obj with
  | .dict m => (m.lookup key).getD .nilV
  | .strMap m => .str ((m.lookup key).getD "")
  | .arr xs =>
    match goAtoi key with
    | some idx =>
      if 0 ≤ idx ∧ idx < xs.length then xs.getD idx.toNat .nilV else .nilV
    | none => .nilV
  | _ => .nilV

/-- The access-path loop of `Evaluator.evaluateVariableReference`: apply
each access in turn and fail the moment a step produces the nil
interface. -/
def applyAccessPath : List Access → Value → Except String Value
  | [], v => .ok v
  | a :: rest, v =>
    match (match a.type with
           | .property => getProperty v a.key
           | .index => getIndex v a.key) with
    | .nilV => .error ("cannot access " ++ a.key ++ " on nil value")
    | w => applyAccessPath rest w

/-- `Evaluator.evaluateVariableReference`: resolve the base name
(`call_count`, `request`, then user variables), then apply the access
path.  Reads the context and never writes it. -/
def evaluateVariableReference (name : String) (path : List Access)
    (ctx : ExecutionContext) : Except String Value :=
  if name = "call_count" then applyAccessPath path (.intV ctx.CallCount)
  else if name = "request" then applyAccessPath path ctx.Request
  else
    match ctx.Variables.lookup name with
    | some v => applyAccessPath path v
    | none => .error ("undefined variable: " ++ name)

/-- The dictionary branch of the destructuring loop in
`Evaluator.evaluateAttribution`: each variable whose name is a key of
the map is bound to that entry; the others are skipped. -/
def bindDict (m : List (String × Value)) (vars : List String)
    (d : List (String × Value)) : List (String × Value) :=
  match vars with
  | [] => m
  | x :: vs =>
    bindDict (match d.lookup x with
              | some u => setAssoc m x u
              | none => m) vs d

/-- The array branch of the destructuring loop: positional binding,
variables beyond the length of the sequence are skipped (in the source
the loop keeps iterating with the index out of range and never binds
again, which this recursion renders by stopping). -/
def bindArr (m : List (String × Value)) (vars : List String)
    (xs : List Value) : List (String × Value) :=
  match vars, xs with
  | [], _ => m
  | _ :: _, [] => m
  | x :: vs, u :: us => bindArr (setAssoc m x u) vs us

/-- The binding phase of `Evaluator.evaluateAttribution`, applied once
the right-hand value has been evaluated: a single variable stores the
value verbatim; otherwise a `map[string]interface{}` destructures by
key, a `[]interface{}` destructures positionally, and any other dynamic
type is an error.  The attribution evaluates to the assigned value. -/
def attributionBind (vars : List String) (v : Value)
    (ctx : ExecutionContext) : ExecutionContext × Except String Value :=
  match vars with
  | [x] => ({ ctx with Variables := setAssoc ctx.Variables x v }, .ok v)
  | _ =>
    match v with
    | .dict d => ({ ctx with Variables := bindDict ctx.Variables vars d }, .ok v)
    | .arr xs => ({ ctx with Variables := bindArr ctx.Variables vars xs }, .ok v)
    | _ => (ctx, .error ("cannot destructure value of type " ++ goTypeName v))

/-- `strings.Split` (for a non-empty separator; an empty separator
splits into single characters). -/
def goSplit (s sep : String) : List String :=
  if sep.isEmpty then s.data.map (fun c => String.mk [c]) else s.splitOn sep

/-- `strings.Contains`. -/
def goContains (s sub : String) : Bool :=
  if sub.isEmpty then true else (s.splitOn sub).length ≥ 2

/-- `Evaluator.fnSplit`. -/
def fnSplit (target : Value) (args : List Value) : Except String Value :=
  match target with
  | .str s =>
    match args with
    | [a] =>
      match a with
      | .str sep => .ok (.arr ((goSplit s sep).map Value.str))
      | v => .error ("split() delimiter must be string, got " ++ goTypeName v)
    | _ => .error ("split() requires 1 argument, got " ++ toString args.length)
  | v => .error ("split() requires string target, got " ++ goTypeName v)

/-- `Evaluator.fnContains`. -/
def fnContains (target : Value) (args : List Value) : Except String Value :=
  match target with
  | .str s =>
    match args with
    | [a] =>
      match a with
      | .str sub => .ok (.bool (goContains s sub))
      | v => .error ("contains() argument must be string, got " ++ goTypeName v)
    | _ => .error ("contains() requires 1 argument, got " ++ toString args.length)
  | v => .error ("contains() requires string target, got " ++ goTypeName v)

/-- `Evaluator.fnMatches` (`regexp.MatchString` through the context
oracle). -/
def fnMatches (rx : String → String → Except String Bool)
    (target : Value) (args : List Value) : Except String Value :=
  match target with
  | .str s =>
    match args with
    | [a] =>
      match a with
      | .str pat =>
        match rx pat s with
        | .ok b => .ok (.bool b)
        | .error e => .error ("invalid regex pattern: " ++ e)
      | v => .error ("matches() pattern must be string, got " ++ goTypeName v)
    | _ => .error ("matches() requires 1 argument, got " ++ toString args.length)
  | v => .error ("matches() requires string target, got " ++ goTypeName v)

/-- `Evaluator.fnUpper`. -/
def fnUpper (target : Value) (args : List Value) : Except String Value :=
  match target with
  | .str s =>
    match args with
    | [] => .ok (.str s.toUpper)
    | _ => .error ("upper() takes no arguments, got " ++ toString args.length)
  | v => .error ("upper() requires string target, got " ++ goTypeName v)

/-- `Evaluator.fnLower`. -/
def fnLower (target : Value) (args : List Value) : Except String Value :=
  match target with
  | .str s =>
    match args with
    | [] => .ok (.str s.toLower)
    | _ => .error ("lower() takes no arguments, got " ++ toString args.length)
  | v => .error ("lower() requires string target, got " ++ goTypeName v)

/-- `Evaluator.fnTrim` (`strings.TrimSpace`). -/
def fnTrim (target : Value) (args : List Value) : Except String Value :=
  match target with
  | .str s =>
    match args with
    | [] => .ok (.str s.trim)
    | _ => .error ("trim() takes no arguments, got " ++ toString args.length)
  | v => .error ("trim() requires string target, got " ++ goTypeName v)

/-- `Evaluator.fnSubstring`: byte slice `str[iStart:iEnd]` after
truncating both numeric arguments to `int` and bounds-checking them
(ASCII strings, where Go bytes and characters coincide). -/
def fnSubstring (target : Value) (args : List Value) : Except String Value :=
  match target with
  | .str s =>
    match args with
    | [a, b] =>
      match toFloat64 a with
      | none => .error ("substring() start must be number, got " ++ goTypeName a)
      | some qa =>
        match toFloat64 b with
        | none => .error ("substring() end must be number, got " ++ goTypeName b)
        | some qb =>
          let iStart := qa.trunc
          let iEnd := qb.trunc
          if iStart < 0 ∨ (s.length : Int) ≤ iStart ∨ iEnd < 0
              ∨ (s.length : Int) < iEnd ∨ iEnd < iStart
          then .error "substring() indices out of bounds"
          else .ok (.str (String.mk ((s.data.drop iStart.toNat).take (iEnd - iStart).toNat)))
    | _ => .error ("substring() requires 2 arguments, got " ++ toString args.length)
  | v => .error ("substring() requires string target, got " ++ goTypeName v)

/-- `Evaluator.fnLen` (the length of an ASCII string, an array, or a
dictionary, as `float64`). -/
def fnLen (target : Value) (args : List Value) : Except String Value :=
  match args with
  | [] =>
    match target with
    | .str s => .ok (.num (GoFloat.ofInt s.length))
    | .arr xs => .ok (.num (GoFloat.ofInt xs.length))
    | .dict m => .ok (.num (GoFloat.ofInt m.length))
    | v => .error ("len() requires string or collection, got " ++ goTypeName v)
  | _ => .error ("len() takes no arguments, got " ++ toString args.length)

/-- `Evaluator.fnRandom`: a float in `[0,1)` from the context RNG. -/
def fnRandom (r : Rng) (args : List Value) : Rng × Except String Value :=
  match args with
  | [] =>
    let (f, r') := r.nextFloat
    (r', .ok (.num f))
  | _ => (r, .error ("random() takes no arguments, got " ++ toString args.length))

/-- `Evaluator.fnRandomInt`: `rand.Intn(max-min+1) + min` as
`float64`. -/
def fnRandomInt (r : Rng) (args : List Value) : Rng × Except String Value :=
  match args with
  | [a, b] =>
    match toFloat64 a with
    | none => (r, .error ("random_int() min must be number, got " ++ goTypeName a))
    | some qa =>
      match toFloat64 b with
      | none => (r, .error ("random_int() max must be number, got " ++ goTypeName b))
      | some qb =>
        let iMin := qa.trunc
        let iMax := qb.trunc
        if iMax < iMin then (r, .error "random_int() min must be <= max")
        else
          let (k, r') := r.nextIntn (iMax - iMin + 1).toNat
          (r', .ok (.num (GoFloat.ofInt (k + iMin))))
  | _ => (r, .error ("random_int() requires 2 arguments, got " ++ toString args.length))

/-- `Evaluator.fnRandomFloat`: `min + Float64()*(max-min)`. -/
def fnRandomFloat (r : Rng) (args : List Value) : Rng × Except String Value :=
  match args with
  | [a, b] =>
    match toFloat64 a with
    | none => (r, .error ("random_float() min must be number, got " ++ goTypeName a))
    | some qa =>
      match toFloat64 b with
      | none => (r, .error ("random_float() max must be number, got " ++ goTypeName b))
      | some qb =>
        if qb.blt qa then (r, .error "random_float() min must be <= max")
        else
          let (f, r') := r.nextFloat
          (r', .ok (.num (qa.add (f.mul (qb.sub qa)))))
  | _ => (r, .error ("random_float() requires 2 arguments, got " ++ toString args.length))

/-- `Evaluator.fnRandomChoice`: a uniformly chosen element of a
non-empty array target. -/
def fnRandomChoice (r : Rng) (target : Value) (args : List Value) :
    Rng × Except String Value :=
  match target with
  | .arr xs =>
    match args with
    | [] =>
      if xs.length = 0 then (r, .error "random_choice() requires non-empty array")
      else
        let (k, r') := r.nextIntn xs.length
        (r', .ok (xs.getD k .nilV))
    | _ => (r, .error ("random_choice() takes no arguments, got " ++ toString args.length))
  | v => (r, .error ("random_choice() requires array target, got " ++ goTypeName v))

/-- The name dispatch of `Evaluator.callBuiltinFunction` with the
context's two relevant components (the RNG stream, which random builtins
advance, and the regexp oracle) passed explicitly.  Note the dispatch
has no `random_bool` case (nor cases for `not_contains`, the `is_*` type
tests, or `round`/`floor`/`ceil`/`abs`), so those names fall through to
the unknown-function error even though the validator registers them. -/
def callBuiltinCore (name : String) (target : Value) (args : List Value)
    (r : Rng) (rx : String → String → Except String Bool) :
    Rng × Except String Value :=
  if name = "split" then (r, fnSplit target args)
  else if name = "contains" then (r, fnContains target args)
  else if name = "matches" then (r, fnMatches rx target args)
  else if name = "upper" then (r, fnUpper target args)
  else if name = "lower" then (r, fnLower target args)
  else if name = "trim" then (r, fnTrim target args)
  else if name = "substring" then (r, fnSubstring target args)
  else if name = "len" then (r, fnLen target args)
  else if name = "random" then fnRandom r args
  else if name = "random_int" then fnRandomInt r args
  else if name = "random_float" then fnRandomFloat r args
  else if name = "random_choice" then fnRandomChoice r target args
  else (r, .error ("unknown function: " ++ name))

/-- `Evaluator.callBuiltinFunction`: dispatch through
`callBuiltinCore`; the only context field a builtin can write is the
RNG stream. -/
def callBuiltinFunction (name : String) (target : Value) (args : List Value)
    (ctx : ExecutionContext) : ExecutionContext × Except String Value :=
  ({ ctx with rand := (callBuiltinCore name target args ctx.rand ctx.regexpMatch).1 },
   (callBuiltinCore name target args ctx.rand ctx.regexpMatch).2)

mutual

/-- `Evaluator.Evaluate`: the tree-walking evaluator, with the context
threaded explicitly (the source mutates the `*ExecutionContext`
receiver) and an explicit recursion budget.  Literal nodes evaluate to
themselves; `RangeValue` evaluates to itself; table literals evaluate
their members; references resolve through the context; function calls
evaluate the optional target, then the arguments left to right, then
dispatch to the builtin library. -/
def Evaluate : Nat → Expr → ExecutionContext →
    ExecutionContext × Except String Value
  | 0, _, ctx => (ctx, .error "recursion budget exhausted")
  | fuel + 1, e, ctx =>
    match e with
    | .binary l op r =>
      match Evaluate fuel l ctx with
      | (c1, .error err) => (c1, .error err)
      | (c1, .ok lv) =>
        match Evaluate fuel r c1 with
        | (c2, .error err) => (c2, .error err)
        | (c2, .ok rv) => (c2, evaluateBinaryOp op lv rv)
    | .unary op operand =>
      match Evaluate fuel operand ctx with
      | (c1, .error err) => (c1, .error err)
      | (c1, .ok v) => (c1, evaluateUnaryOp op v)
    | .attribution value vars =>
      match Evaluate fuel value ctx with
      | (c1, .error err) => (c1, .error err)
      | (c1, .ok v) => attributionBind vars v c1
    | .num v => (ctx, .ok (.num v))
    | .bool v => (ctx, .ok (.bool v))
    | .str v => (ctx, .ok (.str v))
    | .table isArray array dict =>
      if isArray then
        match evalList fuel array ctx with
        | (c1, .error err) => (c1, .error err)
        | (c1, .ok vs) => (c1, .ok (.arr vs))
      else
        match evalPairs fuel dict ctx with
        | (c1, .error err) => (c1, .error err)
        | (c1, .ok ps) => (c1, .ok (.dict ps))
    | .range lo hi => (ctx, .ok (.rangeV lo hi))
    | .varRef name path => (ctx, evaluateVariableReference name path ctx)
    | .funcCall target name args =>
      match target with
      | none =>
        match evalList fuel args ctx with
        | (c1, .error err) => (c1, .error err)
        | (c1, .ok argVals) => callBuiltinFunction name .nilV argVals c1
      | some t =>
        match Evaluate fuel t ctx with
        | (c1, .error err) => (c1, .error err)
        | (c1, .ok tv) =>
          match evalList fuel args c1 with
          | (c2, .error err) => (c2, .error err)
          | (c2, .ok argVals) => callBuiltinFunction name tv argVals c2

/-- Left-to-right evaluation of a list of expressions (array elements of
`evaluateTableValue`, argument lists of `evaluateFunctionCall`),
stopping at the first error. -/
def evalList : Nat → List Expr → ExecutionContext →
    ExecutionContext × Except String (List Value)
  | _, [], ctx => (ctx, .ok [])
  | fuel, e :: es, ctx =>
    match Evaluate fuel e ctx with
    | (c1, .error err) => (c1, .error err)
    | (c1, .ok v) =>
      match evalList fuel es c1 with
      | (c2, .error err) => (c2, .error err)
      | (c2, .ok vs) => (c2, .ok (v :: vs))

/-- Evaluation of the entries of a dictionary literal (the `Dict` loop
of `evaluateTableValue`, in the association-list order of this
model). -/
def evalPairs : Nat → List (String × Expr) → ExecutionContext →
    ExecutionContext × Except String (List (String × Value))
  | _, [], ctx => (ctx, .ok [])
  | fuel, (k, e) :: ps, ctx =>
    match Evaluate fuel e ctx with
    | (c1, .error err) => (c1, .error err)
    | (c1, .ok v) =>
      match evalPairs fuel ps c1 with
      | (c2, .error err) => (c2, .error err)
      | (c2, .ok vs) => (c2, .ok ((k, v) :: vs))

end

/-- The loop of `Evaluator.EvaluateConditions`, carrying the running
result: an erroring or non-boolean line aborts with that error; an OR
line sets the running result to `true` when its own value is `true`; an
AND line conjoins and, the moment the conjunction is `false`, returns
the verdict `false` immediately (before looking at any later line). -/
def evalCondLoop (fuel : Nat) : List ConditionLine → Bool → ExecutionContext →
    ExecutionContext × Except String Bool
  | [], result, ctx => (ctx, .ok result)
  | c :: rest, result, ctx =>
    match Evaluate fuel c.Expression ctx with
    | (c1, .error err) => (c1, .error err)
    | (c1, .ok v) =>
      match v with
      | .bool b =>
        if c.IsOrCondition then
          evalCondLoop fuel rest (if b then true else result) c1
        else
          if result && b then evalCondLoop fuel rest true c1
          else (c1, .ok false)
      | w => (c1, .error ("condition must evaluate to boolean, got " ++ goTypeName w))

/-- `Evaluator.EvaluateConditions`: run the loop with the running result
initially `true` (an empty block is vacuously `true`). -/
def EvaluateConditions (fuel : Nat) (conditions : List ConditionLine)
    (ctx : ExecutionContext) : ExecutionContext × Except String Bool :=
  evalCondLoop fuel conditions true ctx

/-- ASCII letter or underscore (the first-character test the lexer and
`isIdentifier` use). -/
def isAlphaUnd (c : Char) : Bool :=
  ('a' ≤ c ∧ c ≤ 'z') ∨ ('A' ≤ c ∧ c ≤ 'Z') ∨ c = '_'

/-- ASCII letter, digit or underscore (identifier continuation). -/
def isIdentChar (c : Char) : Bool :=
  isAlphaUnd c ∨ c.isDigit

/-- The two-character operators the lexer recognizes first. -/
def isTwoCharOp (s : String) : Bool :=
  s = ">>" ∨ s = "==" ∨ s = "!=" ∨ s = ">=" ∨ s = "<=" ∨ s = ".." ∨ s = "//"

/-- The single-character operator/punctuation set of the lexer. -/
def isSingleCharTok (c : Char) : Bool :=
  c = '+' ∨ c = '-' ∨ c = '*' ∨ c = '/' ∨ c = '%' ∨ c = '(' ∨ c = ')' ∨
  c = ',' ∨ c = '[' ∨ c = ']' ∨ c = '{' ∨ c = '}' ∨ c = '.' ∨ c = '<' ∨
  c = '>' ∨ c = '='

/-- The scan loop of `tokenizeExpression`, over the remaining
characters.  The branch order is the source's: whitespace, two-character
operators, string literals, numbers (digit/dot runs), dotted global
function names, identifiers, single-character operators, and finally the
silent skip of anything unrecognized.  An opening quote with no closing
quote falls through every later branch (a `"` matches none of them) and
is silently skipped.  The fuel is an upper bound on the input length;
each step consumes at least one character. -/
def tokenizeGo : Nat → List Char → List String
  | 0, _ => []
  | _, [] => []
  | fuel + 1, c :: cs =>
    if c = ' ' ∨ c = '\t' then tokenizeGo fuel cs
    else if 1 ≤ cs.length ∧ isTwoCharOp (String.mk [c, cs.headD ' ']) then
      String.mk [c, cs.headD ' '] :: tokenizeGo fuel (cs.drop 1)
    else if c = '"' then
      let body := cs.takeWhile (fun ch => ch ≠ '"')
      match cs.dropWhile (fun ch => ch ≠ '"') with
      | _ :: rest => String.mk ('"' :: body ++ ['"']) :: tokenizeGo fuel rest
      | [] => tokenizeGo fuel cs
    else if c.isDigit then
      let run := (c :: cs).takeWhile (fun ch => ch.isDigit ∨ ch = '.')
      String.mk run :: tokenizeGo fuel ((c :: cs).drop run.length)
    else if c = '.' ∧ (cs.headD ' ' |> isAlphaUnd) then
      let run := cs.takeWhile isIdentChar
      String.mk ('.' :: run) :: tokenizeGo fuel (cs.drop run.length)
    else if isAlphaUnd c then
      let run := (c :: cs).takeWhile isIdentChar
      String.mk run :: tokenizeGo fuel ((c :: cs).drop run.length)
    else if isSingleCharTok c then
      String.mk [c] :: tokenizeGo fuel cs
    else tokenizeGo fuel cs

/-- `tokenizeExpression`: split one condition line into raw token
strings. -/
def tokenizeExpression (input : String) : List String :=
  tokenizeGo (input.length + 1) input.data

/-- Digit-list accumulator for `goParseFloat`/`goAtoi`-style parsing. -/
def digitsVal (ds : List Char) : Nat :=
  ds.foldl (fun acc c => acc * 10 + (c.toNat - 48)) 0

/-- `strconv.ParseFloat`, on the digit/dot token shapes this lexer can
produce: digits with at most one dot and at least one digit overall
(Go additionally accepts signs, exponents and `Inf`/`NaN` spellings,
none of which reach `isNumber` as lexer tokens here). -/
def goParseFloat (s : String) : Option GoFloat :=
  match (s.data.span (fun ch => ch ≠ '.')) with
  | (intPart, []) =>
    if intPart ≠ [] ∧ intPart.all Char.isDigit
    then some (GoFloat.ofInt (digitsVal intPart)) else none
  | (intPart, _ :: frac) =>
    if frac.contains '.' then none
    else if intPart = [] ∧ frac = [] then none
    else if intPart.all Char.isDigit ∧ frac.all Char.isDigit
    then some ⟨digitsVal intPart * 10 ^ frac.length + digitsVal frac, 10 ^ frac.length⟩
    else none

/-- `isNumber`: the token parses as a float. -/
def isNumber (s : String) : Bool :=
  (goParseFloat s).isSome

/-- `isString`: at least two characters, starting and ending with a
double quote. -/
def isString (s : String) : Bool :=
  s.length ≥ 2 ∧ s.data.headD ' ' = '"' ∧ s.data.getLastD ' ' = '"'

/-- `isIdentifier`: not empty, not a reserved word, first character a
letter or underscore, rest alphanumeric or underscore. -/
def isIdentifier (s : String) : Bool :=
  if s = "" ∨ s = "and" ∨ s = "or" ∨ s = "not" ∨ s = "True" ∨ s = "False"
  then false
  else
    match s.data with
    | [] => false
    | c :: rest => isAlphaUnd c ∧ rest.all isIdentChar

/-- `isComparisonOp`. -/
def isComparisonOp (s : String) : Bool :=
  s = "==" ∨ s = "!=" ∨ s = ">" ∨ s = "<" ∨ s = ">=" ∨ s = "<="

/-- `isOperator` (the token set that terminates a greedy argument
list). -/
def isOperator (s : String) : Bool :=
  s = "+" ∨ s = "-" ∨ s = "*" ∨ s = "/" ∨ s = "%" ∨ s = "//" ∨
  s = "==" ∨ s = "!=" ∨ s = ">" ∨ s = "<" ∨ s = ">=" ∨ s = "<=" ∨
  s = ".." ∨ s = "and" ∨ s = "or" ∨ s = "not" ∨ s = ">>"

/-- Strip the surrounding quotes of a string token (`token[1:len-1]`). -/
def stripQuotes (s : String) : String :=
  (s.drop 1).dropRight 1

/-- The parser state: the token slice and the current position (the
`ExpressionParser` struct without its redundant copy of the input). -/
structure PState where
  tokens : List String
  pos : Nat

/-- `p.peek()`: the current token, or `""` past the end. -/
def PState.peek (p : PState) : String :=
  p.tokens.getD p.pos ""

/-- The token at an arbitrary position (used for the source's
`p.tokens[p.pos+1]` look-aheads, `none` when out of range). -/
def PState.at (p : PState) (i : Nat) : Option String :=
  p.tokens.get? i

/-- `p.consume()`. -/
def PState.consume (p : PState) : PState :=
  if p.pos < p.tokens.length then { p with pos := p.pos + 1 } else p

/-- `p.isEnd()`. -/
def PState.isEnd (p : PState) : Bool :=
  p.tokens.length ≤ p.pos

/-- `p.isRange()`: a number, `..`, and a number starting at the current
position (with the source's strict `pos+2 < len` bound). -/
def PState.isRangeAt (p : PState) : Bool :=
  p.pos + 2 < p.tokens.length ∧
  isNumber (p.tokens.getD p.pos "") ∧
  p.tokens.getD (p.pos + 1) "" = ".." ∧
  isNumber (p.tokens.getD (p.pos + 2) "")

/-- The Go `expr.(Value)` type assertion used by `parseTable`: the node
types that implement the `Value` interface (every node except
`BinaryExpression`, `UnaryExpression` and `Attribution`). -/
def isValueExpr : Expr → Bool
  | .binary _ _ _ => false
  | .unary _ _ => false
  | .attribution _ _ => false
  | _ => true

/-- `ExpressionParser.parseRange`: both bounds read with the error of
`ParseFloat` ignored (the caller has already checked `isRange`). -/
def parseRange (p : PState) : PState × Except String Expr :=
  let lo := (goParseFloat p.peek).getD (GoFloat.ofInt 0)
  let p := p.consume.consume
  let hi := (goParseFloat p.peek).getD (GoFloat.ofInt 0)
  (p.consume, .ok (.range lo hi))

mutual

/-- `ExpressionParser.parseLogicalOr` (lowest precedence). -/
def parseLogicalOr : Nat → PState → PState × Except String Expr
  | 0, p => (p, .error "recursion budget exhausted")
  | fuel + 1, p =>
    match parseLogicalAnd fuel p with
    | (p1, .error e) => (p1, .error e)
    | (p1, .ok left) => parseOrLoop fuel left p1

/-- The `for p.peek() == "or"` loop of `parseLogicalOr`. -/
def parseOrLoop : Nat → Expr → PState → PState × Except String Expr
  | 0, _, p => (p, .error "recursion budget exhausted")
  | fuel + 1, left, p =>
    if p.peek = "or" then
      match parseLogicalAnd fuel p.consume with
      | (p1, .error e) => (p1, .error e)
      | (p1, .ok right) => parseOrLoop fuel (.binary left "or" right) p1
    else (p, .ok left)

/-- `ExpressionParser.parseLogicalAnd`. -/
def parseLogicalAnd : Nat → PState → PState × Except String Expr
  | 0, p => (p, .error "recursion budget exhausted")
  | fuel + 1, p =>
    match parseAttribution fuel p with
    | (p1, .error e) => (p1, .error e)
    | (p1, .ok left) => parseAndLoop fuel left p1

/-- The `for p.peek() == "and"` loop of `parseLogicalAnd`. -/
def parseAndLoop : Nat → Expr → PState → PState × Except String Expr
  | 0, _, p => (p, .error "recursion budget exhausted")
  | fuel + 1, left, p =>
    if p.peek = "and" then
      match parseAttribution fuel p.consume with
      | (p1, .error e) => (p1, .error e)
      | (p1, .ok right) => parseAndLoop fuel (.binary left "and" right) p1
    else (p, .ok left)

/-- `ExpressionParser.parseAttribution` (`>>` and its comma-separated
variable list). -/
def parseAttribution : Nat → PState → PState × Except String Expr
  | 0, p => (p, .error "recursion budget exhausted")
  | fuel + 1, p =>
    match parseComparison fuel p with
    | (p1, .error e) => (p1, .error e)
    | (p1, .ok left) =>
      if p1.peek = ">>" then parseVarList fuel left p1.consume []
      else (p1, .ok left)

/-- The variable-list loop of `parseAttribution`. -/
def parseVarList : Nat → Expr → PState → List String →
    PState × Except String Expr
  | 0, _, p, _ => (p, .error "recursion budget exhausted")
  | fuel + 1, left, p, vars =>
    let varName := p.peek
    if isIdentifier varName then
      let p1 := p.consume
      if p1.peek = "," then parseVarList fuel left p1.consume (vars ++ [varName])
      else (p1, .ok (.attribution left (vars ++ [varName])))
    else (p, .error ("expected variable name after >>, got " ++ varName))

/-- `ExpressionParser.parseComparison` (non-chaining: at most one
comparison). -/
def parseComparison : Nat → PState → PState × Except String Expr
  | 0, p => (p, .error "recursion budget exhausted")
  | fuel + 1, p =>
    match parseStringConcat fuel p with
    | (p1, .error e) => (p1, .error e)
    | (p1, .ok left) =>
      let op := p1.peek
      if isComparisonOp op then
        match parseStringConcat fuel p1.consume with
        | (p2, .error e) => (p2, .error e)
        | (p2, .ok right) => (p2, .ok (.binary left op right))
      else (p1, .ok left)

/-- `ExpressionParser.parseStringConcat` (`..`). -/
def parseStringConcat : Nat → PState → PState × Except String Expr
  | 0, p => (p, .error "recursion budget exhausted")
  | fuel + 1, p =>
    match parseAddSub fuel p with
    | (p1, .error e) => (p1, .error e)
    | (p1, .ok left) => parseConcatLoop fuel left p1

/-- The `..` loop of `parseStringConcat`. -/
def parseConcatLoop : Nat → Expr → PState → PState × Except String Expr
  | 0, _, p => (p, .error "recursion budget exhausted")
  | fuel + 1, left, p =>
    if p.peek = ".." then
      match parseAddSub fuel p.consume with
      | (p1, .error e) => (p1, .error e)
      | (p1, .ok right) => parseConcatLoop fuel (.binary left ".." right) p1
    else (p, .ok left)

/-- `ExpressionParser.parseAddSub`. -/
def parseAddSub : Nat → PState → PState × Except String Expr
  | 0, p => (p, .error "recursion budget exhausted")
  | fuel + 1, p =>
    match parseMulDiv fuel p with
    | (p1, .error e) => (p1, .error e)
    | (p1, .ok left) => parseAddSubLoop fuel left p1

/-- The `+`/`-` loop of `parseAddSub`. -/
def parseAddSubLoop : Nat → Expr → PState → PState × Except String Expr
  | 0, _, p => (p, .error "recursion budget exhausted")
  | fuel + 1, left, p =>
    let op := p.peek
    if op = "+" ∨ op = "-" then
      match parseMulDiv fuel p.consume with
      | (p1, .error e) => (p1, .error e)
      | (p1, .ok right) => parseAddSubLoop fuel (.binary left op right) p1
    else (p, .ok left)

/-- `ExpressionParser.parseMulDiv`. -/
def parseMulDiv : Nat → PState → PState × Except String Expr
  | 0, p => (p, .error "recursion budget exhausted")
  | fuel + 1, p =>
    match parseUnary fuel p with
    | (p1, .error e) => (p1, .error e)
    | (p1, .ok left) => parseMulDivLoop fuel left p1

/-- The `*`/`/`/`%`/`//` loop of `parseMulDiv`. -/
def parseMulDivLoop : Nat → Expr → PState → PState × Except String Expr
  | 0, _, p => (p, .error "recursion budget exhausted")
  | fuel + 1, left, p =>
    let op := p.peek
    if op = "*" ∨ op = "/" ∨ op = "%" ∨ op = "//" then
      match parseUnary fuel p.consume with
      | (p1, .error e) => (p1, .error e)
      | (p1, .ok right) => parseMulDivLoop fuel (.binary left op right) p1
    else (p, .ok left)

/-- `ExpressionParser.parseUnary` (`not`). -/
def parseUnary : Nat → PState → PState × Except String Expr
  | 0, p => (p, .error "recursion budget exhausted")
  | fuel + 1, p =>
    if p.peek = "not" then
      match parseUnary fuel p.consume with
      | (p1, .error e) => (p1, .error e)
      | (p1, .ok operand) => (p1, .ok (.unary "not" operand))
    else parsePrimary fuel p

/-- `ExpressionParser.parsePrimary`: parentheses, literals, tables,
ranges, dotted global function calls, and identifiers, in the source's
test order.  Values continue into `parseFunctionCall` to pick up
method-style calls. -/
def parsePrimary : Nat → PState → PState × Except String Expr
  | 0, p => (p, .error "recursion budget exhausted")
  | fuel + 1, p =>
    let token := p.peek
    if token = "(" then
      match parseLogicalOr fuel p.consume with
      | (p1, .error e) => (p1, .error e)
      | (p1, .ok expr) =>
        if p1.peek = ")" then (p1.consume, .ok expr)
        else (p1, .error ("expected closing parenthesis, got " ++ p1.peek))
    else if isNumber token then
      parseFunctionCall fuel (.num ((goParseFloat token).getD (GoFloat.ofInt 0))) p.consume
    else if token = "True" then parseFunctionCall fuel (.bool true) p.consume
    else if token = "False" then parseFunctionCall fuel (.bool false) p.consume
    else if isString token then
      parseFunctionCall fuel (.str (stripQuotes token)) p.consume
    else if token = "\x7b" then parseTableLoop fuel p.consume false [] []
    else if p.isRangeAt then parseRange p
    else if token.data.headD ' ' = '.' then parseGlobalFunction fuel p
    else if isIdentifier token then parseVariableOrFunction fuel p
    else (p, .error ("unexpected token: " ++ token))

/-- `ExpressionParser.parseFunctionCall`: after a completed primary, a
`.name` whose name token is an identifier becomes a method-style call
whose arguments are consumed greedily until an operator or terminator;
an argument that fails to parse breaks the loop with the position as the
failed attempt left it.  Calls chain. -/
def parseFunctionCall : Nat → Expr → PState → PState × Except String Expr
  | 0, _, p => (p, .error "recursion budget exhausted")
  | fuel + 1, target, p =>
    if p.peek = "." then
      match p.at (p.pos + 1) with
      | none => (p, .ok target)
      | some next =>
        if next = "." then (p, .ok target)
        else if next.data.headD ' ' = '.' then (p, .ok target)
        else if isIdentifier next then
          let p1 := p.consume
          let funcName := p1.peek
          let p2 := p1.consume
          match parseArgsLoop fuel p2 [] with
          | (p3, args) => parseFunctionCall fuel (.funcCall (some target) funcName args) p3
        else (p, .ok target)
    else (p, .ok target)

/-- The greedy argument loop shared by `parseFunctionCall` and
`parseGlobalFunction`: arguments are primaries, collected while the next
token is not an operator, `,`, `>>`, `)`, or `]`; a failed primary
breaks the loop (the source discards the error, keeping the advanced
position). -/
def parseArgsLoop : Nat → PState → List Expr → PState × List Expr
  | 0, p, args => (p, args)
  | fuel + 1, p, args =>
    if ¬ p.isEnd ∧ ¬ isOperator p.peek ∧ p.peek ≠ "," ∧ p.peek ≠ ">>" ∧
        p.peek ≠ ")" ∧ p.peek ≠ "]" then
      match parsePrimary fuel p with
      | (p1, .error _) => (p1, args)
      | (p1, .ok arg) => parseArgsLoop fuel p1 (args ++ [arg])
    else (p, args)

/-- `ExpressionParser.parseGlobalFunction`: a `.name` token becomes a
target-less call with greedily consumed arguments. -/
def parseGlobalFunction : Nat → PState → PState × Except String Expr
  | 0, p => (p, .error "recursion budget exhausted")
  | fuel + 1, p =>
    let funcName := p.peek.drop 1
    match parseArgsLoop fuel p.consume [] with
    | (p1, args) => (p1, .ok (.funcCall none funcName args))

/-- `ExpressionParser.parseVariableOrFunction`: an identifier, its
chained `.prop`/`["key"]` accesses, then a possible method call. -/
def parseVariableOrFunction : Nat → PState → PState × Except String Expr
  | 0, p => (p, .error "recursion budget exhausted")
  | fuel + 1, p =>
    let name := p.peek
    match parseAccessLoop fuel p.consume [] with
    | (p1, .error e) => (p1, .error e)
    | (p1, .ok path) => parseFunctionCall fuel (.varRef name path) p1

/-- The access-path loop of `parseVariableOrFunction`: a dot followed by
another dot stops (range/concat operator); a dot followed by an
identifier is property access; `[` takes a string or number key up to
`]`; anything else stops.  The error channel carries the source's
bracket-notation errors. -/
def parseAccessLoop : Nat → PState → List Access →
    PState × Except String (List Access)
  | 0, p, _ => (p, .error "recursion budget exhausted")
  | fuel + 1, p, acc =>
    let next := p.peek
    if next = "." then
      match p.at (p.pos + 1) with
      | some t =>
        if t = "." then (p, .ok acc)
        else if isIdentifier t then
          let p1 := p.consume
          let prop := p1.peek
          parseAccessLoop fuel p1.consume (acc ++ [⟨.property, prop⟩])
        else (p, .ok acc)
      | none => (p, .ok acc)
    else if next = "[" then
      let p1 := p.consume
      let key := p1.peek
      if isString key then
        let p2 := p1.consume
        if p2.peek = "]" then
          parseAccessLoop fuel p2.consume (acc ++ [⟨.index, stripQuotes key⟩])
        else (p2, .error ("expected closing bracket, got " ++ p2.peek))
      else if isNumber key then
        let p2 := p1.consume
        if p2.peek = "]" then
          parseAccessLoop fuel p2.consume (acc ++ [⟨.index, key⟩])
        else (p2, .error ("expected closing bracket, got " ++ p2.peek))
      else (p1, .error ("expected string or number in bracket notation, got " ++ key))
    else (p, .ok acc)

/-- The element loop of `ExpressionParser.parseTable` (the `{` has
already been consumed): `key = value` pairs switch the literal to
dictionary form; elements and values must be `Value`-implementing nodes;
a trailing `}` closes the literal. -/
def parseTableLoop : Nat → PState → Bool → List Expr → List (String × Expr) →
    PState × Except String Expr
  | 0, p, _, _, _ => (p, .error "recursion budget exhausted")
  | fuel + 1, p, isDict, elements, dictPairs =>
    if p.peek ≠ "\x7d" ∧ ¬ p.isEnd then
      if isIdentifier p.peek ∧ p.at (p.pos + 1) = some "=" then
        let key := p.peek
        let p1 := p.consume.consume
        match parseLogicalOr fuel p1 with
        | (p2, .error e) => (p2, .error e)
        | (p2, .ok val) =>
          if isValueExpr val then
            let p3 := if p2.peek = "," then p2.consume else p2
            parseTableLoop fuel p3 true elements (setAssoc dictPairs key val)
          else (p2, .error "table value must be a Value type")
      else
        match parseLogicalOr fuel p with
        | (p2, .error e) => (p2, .error e)
        | (p2, .ok val) =>
          if isValueExpr val then
            let p3 := if p2.peek = "," then p2.consume else p2
            parseTableLoop fuel p3 isDict (elements ++ [val]) dictPairs
          else (p2, .error "table element must be a Value type")
    else
      if p.peek = "\x7d" then
        if isDict then (p.consume, .ok (.table false [] dictPairs))
        else (p.consume, .ok (.table true elements []))
      else (p, .error ("expected closing brace, got " ++ p.peek))

end

/-- `ExpressionParser.Parse` composed with `NewExpressionParser`: an
empty token sequence is the `False` literal, otherwise parse from the
lowest-precedence level (the source does not require all tokens to be
consumed).  The budget of `1000` covers every concrete condition text
considered in this development. -/
def Parse (input : String) : Except String Expr :=
  let tokens := tokenizeExpression input
  if tokens.isEmpty then .ok (.bool false)
  else (parseLogicalOr 1000 ⟨tokens, 0⟩).2

/-- Parse one condition text and evaluate it in a context (the
parse-then-evaluate pipeline a condition line goes through; parse
errors are surfaced on the evaluation error channel). -/
def EvalText (input : String) (ctx : ExecutionContext) :
    ExecutionContext × Except String Value :=
  match Parse input with
  | .error e => (ctx, .error e)
  | .ok e => Evaluate 1000 e ctx

/-- The dynamic types `evaluateAttribution` can destructure
(`map[string]interface{}` and `[]interface{}`). -/
def isDestructurable : Value → Bool
  | .dict _ => true
  | .arr _ => true
  | _ => false

/-- Expression trees containing no `Attribution` node. -/
inductive NoAttr : Expr → Prop where
  | binary (l : Expr) (op : String) (r : Expr) :
      NoAttr l → NoAttr r → NoAttr (.binary l op r)
  | unary (op : String) (e : Expr) : NoAttr e → NoAttr (.unary op e)
  | num (v : GoFloat) : NoAttr (.num v)
  | bool (v : Bool) : NoAttr (.bool v)
  | str (v : String) : NoAttr (.str v)
  | table (isArray : Bool) (array : List Expr) (dict : List (String × Expr)) :
      (∀ e ∈ array, NoAttr e) → (∀ p ∈ dict, NoAttr p.2) →
      NoAttr (.table isArray array dict)
  | range (lo hi : GoFloat) : NoAttr (.range lo hi)
  | varRef (name : String) (path : List Access) : NoAttr (.varRef name path)
  | funcCallNone (name : String) (args : List Expr) :
      (∀ e ∈ args, NoAttr e) → NoAttr (.funcCall none name args)
  | funcCallSome (t : Expr) (name : String) (args : List Expr) :
      NoAttr t → (∀ e ∈ args, NoAttr e) →
      NoAttr (.funcCall (some t) name args)

/-- The runtime-value shapes named by the specification: "float64
number, bool, string, ordered sequence of runtime values, or mapping
from string to runtime value".  Written from the specification's words
(not from the source) to compare the source's actual behaviour
against it. -/
inductive SpecRuntimeShape : Value → Prop where
  | num (q : GoFloat) : SpecRuntimeShape (.num q)
  | bool (b : Bool) : SpecRuntimeShape (.bool b)
  | str (s : String) : SpecRuntimeShape (.str s)
  | arr (xs : List Value) :
      (∀ v ∈ xs, SpecRuntimeShape v) → SpecRuntimeShape (.arr xs)
  | dict (m : List (String × Value)) :
      (∀ p ∈ m, SpecRuntimeShape p.2) → SpecRuntimeShape (.dict m)

/-- A sample context: a GET request carrying no headers and no query
parameters (in particular no `Authorization` header), no user variables,
call count `0`. -/
def sampleCtx : ExecutionContext :=
  ⟨0, .req "GET" "/" [] [] (.str ""), [], ⟨[], []⟩, fun _ _ => .ok false⟩

/-- A sample context whose endpoint has been called five times. -/
def ctxCall5 : ExecutionContext :=
  ⟨5, .req "GET" "/" [] [] (.str ""), [], ⟨[], []⟩, fun _ _ => .ok false⟩

/-- A sample context holding the user variable `result`. -/
def ctxWithResult (v : Value) : ExecutionContext :=
  ⟨0, .req "GET" "/" [] [] (.str ""), [("result", v)], ⟨[], []⟩, fun _ _ => .ok false⟩

/-- C1: the claim says an OR line whose own expression is true forces
the verdict of the block `[a=false (AND), c=true (OR)]` to `true`.  The
code does the opposite: `EvaluateConditions` returns the moment an AND
line is false, so the block `[False (AND), True (OR)]` yields the
verdict `false` (without error) in every context — the later OR line is
never reached. -/
theorem c1_failed_and_line_short_circuits_past_or_line (ctx : ExecutionContext) :
    EvaluateConditions 1
      [⟨.bool false, false, 1⟩, ⟨.bool true, true, 2⟩] ctx
      = (ctx, .ok false) := rfl

/-- C2: the claim says the block `headers["Authorization"] >> token`;
`token == ""  or  not token` evaluates to `true` against a request with
no `Authorization` header.  The two lines parse as stated, but
evaluating the block fails: `headers` is not one of the evaluator's
fixed base names (`call_count`, `request`) and is not a user variable,
so the first line aborts with the undefined-variable error and the
block produces an error, not the verdict `true`. -/
theorem c2_headers_base_name_is_undefined :
    Parse "headers[\"Authorization\"] >> token"
      = .ok (.attribution (.varRef "headers" [⟨.index, "Authorization"⟩]) ["token"])
    ∧ Parse "token == \"\"  or  not token"
      = .ok (.binary (.binary (.varRef "token" []) "==" (.str "")) "or"
          (.unary "not" (.varRef "token" [])))
    ∧ EvaluateConditions 9
        [⟨.attribution (.varRef "headers" [⟨.index, "Authorization"⟩]) ["token"], false, 1⟩,
         ⟨.binary (.binary (.varRef "token" []) "==" (.str "")) "or"
            (.unary "not" (.varRef "token" [])), false, 2⟩]
        sampleCtx
      = (sampleCtx, .error "undefined variable: headers") :=
  ⟨rfl, rfl, rfl⟩

/-- C3: the claim says the target-less `random_bool` call with no
arguments succeeds with a boolean from the context RNG.  The builtin
dispatch of the evaluator has no `random_bool` case (even though the
validator registers the name and the language documentation lists it),
so the call errors with the unknown-function message in every
context. -/
theorem c3_random_bool_is_unknown_to_the_evaluator
    (fuel : Nat) (ctx : ExecutionContext) :
    Evaluate (fuel + 1) (.funcCall none "random_bool" []) ctx
      = (ctx, .error "unknown function: random_bool") := rfl

/-- C4 counterexample: evaluating the variable reference `call_count`
in a context with call count `5` yields the Go `int` `5` — not a
`float64` number, and not any of the specification's five runtime-value
shapes; likewise a range literal evaluates to a `RangeValue` and the
bare name `request` evaluates to the `*RequestContext`, neither of which
is one of the five shapes. -/
theorem c4_counterexample :
    Evaluate 1 (.varRef "call_count" []) ctxCall5 = (ctxCall5, .ok (.intV 5))
    ∧ ¬ SpecRuntimeShape (.intV 5)
    ∧ Evaluate 1 (.range (GoFloat.ofInt 1) (GoFloat.ofInt 3)) ctxCall5
        = (ctxCall5, .ok (.rangeV (GoFloat.ofInt 1) (GoFloat.ofInt 3)))
    ∧ ¬ SpecRuntimeShape (.rangeV (GoFloat.ofInt 1) (GoFloat.ofInt 3))
    ∧ Evaluate 1 (.varRef "request" []) ctxCall5
        = (ctxCall5, .ok (.req "GET" "/" [] [] (.str "")))
    ∧ ¬ SpecRuntimeShape (.req "GET" "/" [] [] (.str "")) := by
  refine ⟨rfl, ?_, rfl, ?_, rfl, ?_⟩ <;> · intro h; cases h

/-- C4 amended: the evaluator's results are not confined to the five
specification shapes: `call_count` evaluates to the raw Go `int` call
counter (unconverted), a range literal evaluates to itself as a
`RangeValue`, and the bare name `request` evaluates to the
`*RequestContext` stored in the context. -/
theorem c4_amended_evaluator_returns_other_shapes
    (fuel : Nat) (ctx : ExecutionContext) :
    Evaluate (fuel + 1) (.varRef "call_count" []) ctx
      = (ctx, .ok (.intV ctx.CallCount))
    ∧ (∀ lo hi, Evaluate (fuel + 1) (.range lo hi) ctx = (ctx, .ok (.rangeV lo hi)))
    ∧ Evaluate (fuel + 1) (.varRef "request" []) ctx = (ctx, .ok ctx.Request) :=
  ⟨rfl, fun lo hi => rfl, rfl⟩

/-- C7: operator precedence — the text `1 + 2 * 3` parses and evaluates
to the number `7` (multiplication binds tighter than addition), and
`True or False and True` parses and evaluates to `true` (`and` binds
tighter than `or`), in every execution context. -/
theorem c7_parse_and_evaluate_precedence (ctx : ExecutionContext) :
    EvalText "1 + 2 * 3" ctx = (ctx, .ok (.num (GoFloat.ofInt 7)))
    ∧ EvalText "True or False and True" ctx = (ctx, .ok (.bool true)) :=
  ⟨rfl, rfl⟩

/-- C8 counterexample: the condition text `"abc` contains an opening
double quote with no matching closing quote, yet parsing does not
report a syntax error — the lexer silently skips the unmatched quote,
re-tokenizes the remainder as the identifier `abc`, and the parse
succeeds as a variable reference. -/
theorem c8_counterexample :
    tokenizeExpression "\"abc" = ["abc"]
    ∧ Parse "\"abc" = .ok (.varRef "abc" []) :=
  ⟨rfl, rfl⟩

/-- C8 amended: an unterminated string literal is not a syntax error:
the lexer's string branch only emits a token when it finds a closing
quote, so an unmatched opening quote falls through to the
unrecognized-character skip and the remaining characters are
re-tokenized as ordinary tokens; parsing can then succeed (`"abc`
parses as the variable reference `abc`, and `x == "abc` as the
comparison of the two variable references `x` and `abc`). -/
theorem c8_amended_unterminated_string_silently_retokenized :
    tokenizeExpression "x == \"abc" = ["x", "==", "abc"]
    ∧ Parse "x == \"abc" = .ok (.binary (.varRef "x" []) "==" (.varRef "abc" [])) :=
  ⟨rfl, rfl⟩

/-- C10: indexing the request header map (and likewise the query map)
with an absent key is not an error: the `map[string]string` branch of
`getIndex` yields the missing-key zero value `""` — a string, not the
nil interface — so the nil-access check passes and the reference
evaluates to the empty string. -/
theorem c10_missing_header_key_yields_empty_string
    (fuel : Nat) (ctx : ExecutionContext)
    (method path : String) (query headers : List (String × String)) (body : Value)
    (K : String)
    (hreq : ctx.Request = .req method path query headers body)
    (hh : headers.lookup K = none) (hq : query.lookup K = none) :
    Evaluate (fuel + 1) (.varRef "request" [⟨.property, "headers"⟩, ⟨.index, K⟩]) ctx
      = (ctx, .ok (.str ""))
    ∧ Evaluate (fuel + 1) (.varRef "request" [⟨.property, "query"⟩, ⟨.index, K⟩]) ctx
      = (ctx, .ok (.str "")) := by
  constructor <;>
    simp [Evaluate, evaluateVariableReference, hreq, applyAccessPath,
      getProperty, getIndex, hh, hq]

/-- C10 witness: the sample context's request carries no headers at
all, so looking up `Authorization` in either map yields the empty
string. -/
theorem c10_witness :
    sampleCtx.Request = .req "GET" "/" [] [] (.str "")
    ∧ List.lookup "Authorization" ([] : List (String × String)) = none
    ∧ Evaluate 1
        (.varRef "request" [⟨.property, "headers"⟩, ⟨.index, "Authorization"⟩])
        sampleCtx = (sampleCtx, .ok (.str ""))
    ∧ Evaluate 1
        (.varRef "request" [⟨.property, "query"⟩, ⟨.index, "Authorization"⟩])
        sampleCtx = (sampleCtx, .ok (.str "")) := by
  have h := c10_missing_header_key_yields_empty_string 0 sampleCtx
    "GET" "/" [] [] (.str "") "Authorization" rfl rfl rfl
  exact ⟨rfl, rfl, h.1, h.2⟩

/-- Running the condition loop over a clean all-OR prefix (every line
marked OR, each evaluating to a boolean without error) keeps the
running result `true` and continues with the remaining lines from the
state the prefix left behind. -/
theorem evalCondLoop_clean_or_head (fuel : Nat) (pre : List ConditionLine) :
    ∀ (xs : List ConditionLine) (ctx ctx1 : ExecutionContext),
      (∀ l ∈ pre, l.IsOrCondition = true) →
      evalCondLoop fuel pre true ctx = (ctx1, .ok true) →
      evalCondLoop fuel (pre ++ xs) true ctx = evalCondLoop fuel xs true ctx1 := by
  induction pre with
  | nil =>
    intro xs ctx ctx1 hpre hclean
    simp only [evalCondLoop, Prod.mk.injEq] at hclean
    obtain ⟨rfl, -⟩ := hclean
    rfl
  | cons c pre' ih =>
    intro xs ctx ctx1 hpre hclean
    have hc : c.IsOrCondition = true := hpre c (by simp)
    have hpre' : ∀ l ∈ pre', l.IsOrCondition = true :=
      fun l hl => hpre l (by simp [hl])
    rw [List.cons_append]
    rcases h1 : Evaluate fuel c.Expression ctx with ⟨cmid, r⟩
    cases r with
    | error err =>
      simp only [evalCondLoop, h1] at hclean
      exact absurd hclean (by simp)
    | ok v =>
      cases v
      case bool b =>
        have hb : (if b then true else true) = true := by cases b <;> rfl
        simp only [evalCondLoop, h1, hc, if_true, hb] at hclean ⊢
        exact ih xs cmid ctx1 hpre' hclean
      all_goals
        simp only [evalCondLoop, h1] at hclean
        exact absurd hclean (by simp)

/-- C5: AND short-circuit suppresses later errors.  In a block whose
first non-OR line evaluates to `false` (after a clean all-OR prefix),
`EvaluateConditions` returns the verdict `false` with no error, whatever
the remaining lines are — they are never evaluated, so in particular a
later error-raising AND line raises nothing. -/
theorem c5_and_short_circuit (fuel : Nat) (pre : List ConditionLine)
    (a : Expr) (line : Int) (rest : List ConditionLine)
    (ctx ctx1 ctx2 : ExecutionContext)
    (hpre : ∀ l ∈ pre, l.IsOrCondition = true)
    (hclean : evalCondLoop fuel pre true ctx = (ctx1, .ok true))
    (ha : Evaluate fuel a ctx1 = (ctx2, .ok (.bool false))) :
    EvaluateConditions fuel (pre ++ ⟨a, false, line⟩ :: rest) ctx
      = (ctx2, .ok false) := by
  unfold EvaluateConditions
  rw [evalCondLoop_clean_or_head fuel pre (⟨a, false, line⟩ :: rest) ctx ctx1 hpre hclean]
  simp only [evalCondLoop, ha]
  rfl

/-- C5 witness: the block `[False (AND), boom (AND)]`, where `boom` is
an undefined variable whose evaluation would error, yields the verdict
`false` without error — the second line is never evaluated. -/
theorem c5_witness :
    (∀ l ∈ ([] : List ConditionLine), l.IsOrCondition = true)
    ∧ evalCondLoop 1 [] true sampleCtx = (sampleCtx, .ok true)
    ∧ Evaluate 1 (.bool false) sampleCtx = (sampleCtx, .ok (.bool false))
    ∧ EvaluateConditions 1
        [⟨.bool false, false, 1⟩, ⟨.varRef "boom" [], false, 2⟩] sampleCtx
        = (sampleCtx, .ok false) :=
  ⟨fun l hl => absurd hl (List.not_mem_nil l),
   rfl, rfl,
   c5_and_short_circuit 1 [] (.bool false) 1 [⟨.varRef "boom" [], false, 2⟩]
     sampleCtx sampleCtx sampleCtx
     (fun l hl => absurd hl (List.not_mem_nil l)) rfl rfl⟩

/-- Inversion: a binary node without attributions has attribution-free
operands. -/
theorem noAttr_binary {l r : Expr} {op : String}
    (h : NoAttr (.binary l op r)) : NoAttr l ∧ NoAttr r := by
  cases h
  exact ⟨by assumption, by assumption⟩

/-- Inversion for unary nodes. -/
theorem noAttr_unary {e : Expr} {op : String}
    (h : NoAttr (.unary op e)) : NoAttr e := by
  cases h
  assumption

/-- Inversion for attribution nodes (there is no such `NoAttr` proof). -/
theorem noAttr_attribution {v : Expr} {vs : List String}
    (h : NoAttr (.attribution v vs)) : False := by
  cases h

/-- Inversion for table nodes. -/
theorem noAttr_table {ia : Bool} {arr : List Expr} {d : List (String × Expr)}
    (h : NoAttr (.table ia arr d)) :
    (∀ e ∈ arr, NoAttr e) ∧ (∀ p ∈ d, NoAttr p.2) := by
  cases h
  exact ⟨by assumption, by assumption⟩

/-- Inversion for target-less call nodes. -/
theorem noAttr_funcCallNone {name : String} {args : List Expr}
    (h : NoAttr (.funcCall none name args)) : ∀ e ∈ args, NoAttr e := by
  cases h
  assumption

/-- Inversion for method-style call nodes. -/
theorem noAttr_funcCallSome {t : Expr} {name : String} {args : List Expr}
    (h : NoAttr (.funcCall (some t) name args)) :
    NoAttr t ∧ (∀ e ∈ args, NoAttr e) := by
  cases h
  exact ⟨by assumption, by assumption⟩

/-- The binding phase of an attribution writes only the variables map:
call count and request survive unchanged. -/
theorem attributionBind_frame (vars : List String) (v : Value)
    (ctx : ExecutionContext) :
    (attributionBind vars v ctx).1.CallCount = ctx.CallCount
    ∧ (attributionBind vars v ctx).1.Request = ctx.Request := by
  unfold attributionBind
  rcases vars with _ | ⟨x, _ | ⟨y, t⟩⟩ <;> cases v <;> exact ⟨rfl, rfl⟩

/-- The builtin library touches at most the RNG stream of the context:
call count, request and the variables map survive every call. -/
theorem callBuiltin_frame (name : String) (t : Value) (args : List Value)
    (ctx : ExecutionContext) :
    (callBuiltinFunction name t args ctx).1.CallCount = ctx.CallCount
    ∧ (callBuiltinFunction name t args ctx).1.Request = ctx.Request
    ∧ (callBuiltinFunction name t args ctx).1.Variables = ctx.Variables :=
  ⟨rfl, rfl, rfl⟩

/-- Frame facts for `evalList`, given them for `Evaluate` at the same
budget. -/
theorem evalList_frame (fuel : Nat)
    (hE : ∀ (e : Expr) (ctx : ExecutionContext),
      ((Evaluate fuel e ctx).1.CallCount = ctx.CallCount
        ∧ (Evaluate fuel e ctx).1.Request = ctx.Request)
      ∧ (NoAttr e → (Evaluate fuel e ctx).1.Variables = ctx.Variables)) :
    ∀ (l : List Expr) (ctx : ExecutionContext),
      ((evalList fuel l ctx).1.CallCount = ctx.CallCount
        ∧ (evalList fuel l ctx).1.Request = ctx.Request)
      ∧ ((∀ e ∈ l, NoAttr e) → (evalList fuel l ctx).1.Variables = ctx.Variables) := by
  intro l
  induction l with
  | nil => intro ctx; exact ⟨⟨rfl, rfl⟩, fun _ => rfl⟩
  | cons e es ih =>
    intro ctx
    rcases h1 : Evaluate fuel e ctx with ⟨c1, r1⟩
    have hE1 := hE e ctx
    rw [h1] at hE1
    cases r1 with
    | error err =>
      simp only [evalList, h1]
      exact ⟨hE1.1, fun hall => hE1.2 (hall e (by simp))⟩
    | ok v =>
      rcases h2 : evalList fuel es c1 with ⟨c2, r2⟩
      have ih1 := ih c1
      rw [h2] at ih1
      cases r2 with
      | error err =>
        simp only [evalList, h1, h2]
        exact ⟨⟨ih1.1.1.trans hE1.1.1, ih1.1.2.trans hE1.1.2⟩,
          fun hall => (ih1.2 (fun x hx => hall x (by simp [hx]))).trans
            (hE1.2 (hall e (by simp)))⟩
      | ok vs =>
        simp only [evalList, h1, h2]
        exact ⟨⟨ih1.1.1.trans hE1.1.1, ih1.1.2.trans hE1.1.2⟩,
          fun hall => (ih1.2 (fun x hx => hall x (by simp [hx]))).trans
            (hE1.2 (hall e (by simp)))⟩

/-- Frame facts for `evalPairs`, given them for `Evaluate` at the same
budget. -/
theorem evalPairs_frame (fuel : Nat)
    (hE : ∀ (e : Expr) (ctx : ExecutionContext),
      ((Evaluate fuel e ctx).1.CallCount = ctx.CallCount
        ∧ (Evaluate fuel e ctx).1.Request = ctx.Request)
      ∧ (NoAttr e → (Evaluate fuel e ctx).1.Variables = ctx.Variables)) :
    ∀ (ps : List (String × Expr)) (ctx : ExecutionContext),
      ((evalPairs fuel ps ctx).1.CallCount = ctx.CallCount
        ∧ (evalPairs fuel ps ctx).1.Request = ctx.Request)
      ∧ ((∀ p ∈ ps, NoAttr p.2) → (evalPairs fuel ps ctx).1.Variables = ctx.Variables) := by
  intro ps
  induction ps with
  | nil => intro ctx; exact ⟨⟨rfl, rfl⟩, fun _ => rfl⟩
  | cons p ps' ih =>
    intro ctx
    rcases p with ⟨k, e⟩
    rcases h1 : Evaluate fuel e ctx with ⟨c1, r1⟩
    have hE1 := hE e ctx
    rw [h1] at hE1
    cases r1 with
    | error err =>
      simp only [evalPairs, h1]
      exact ⟨hE1.1, fun hall => hE1.2 (hall (k, e) (by simp))⟩
    | ok v =>
      rcases h2 : evalPairs fuel ps' c1 with ⟨c2, r2⟩
      have ih1 := ih c1
      rw [h2] at ih1
      cases r2 with
      | error err =>
        simp only [evalPairs, h1, h2]
        exact ⟨⟨ih1.1.1.trans hE1.1.1, ih1.1.2.trans hE1.1.2⟩,
          fun hall => (ih1.2 (fun x hx => hall x (by simp [hx]))).trans
            (hE1.2 (hall (k, e) (by simp)))⟩
      | ok vs =>
        simp only [evalPairs, h1, h2]
        exact ⟨⟨ih1.1.1.trans hE1.1.1, ih1.1.2.trans hE1.1.2⟩,
          fun hall => (ih1.2 (fun x hx => hall x (by simp [hx]))).trans
            (hE1.2 (hall (k, e) (by simp)))⟩

/-- The frame facts for `Evaluate`, by induction on the recursion
budget: call count and request are never written, and the variables map
is unchanged whenever the expression contains no attribution node. -/
theorem eval_frame : ∀ (fuel : Nat) (e : Expr) (ctx : ExecutionContext),
    ((Evaluate fuel e ctx).1.CallCount = ctx.CallCount
      ∧ (Evaluate fuel e ctx).1.Request = ctx.Request)
    ∧ (NoAttr e → (Evaluate fuel e ctx).1.Variables = ctx.Variables) := by
  intro fuel
  induction fuel with
  | zero =>
    intro e ctx
    simp [Evaluate]
  | succ fuel ih =>
    have hL := evalList_frame fuel ih
    have hP := evalPairs_frame fuel ih
    intro e ctx
    cases e with
    | num v => exact ⟨⟨rfl, rfl⟩, fun _ => rfl⟩
    | bool v => exact ⟨⟨rfl, rfl⟩, fun _ => rfl⟩
    | str v => exact ⟨⟨rfl, rfl⟩, fun _ => rfl⟩
    | range lo hi => exact ⟨⟨rfl, rfl⟩, fun _ => rfl⟩
    | varRef name path => exact ⟨⟨rfl, rfl⟩, fun _ => rfl⟩
    | binary l op r =>
      rcases h1 : Evaluate fuel l ctx with ⟨c1, r1⟩
      have ih1 := ih l ctx
      rw [h1] at ih1
      cases r1 with
      | error err =>
        simp only [Evaluate, h1]
        exact ⟨ih1.1, fun h => ih1.2 (noAttr_binary h).1⟩
      | ok lv =>
        rcases h2 : Evaluate fuel r c1 with ⟨c2, r2⟩
        have ih2 := ih r c1
        rw [h2] at ih2
        cases r2 with
        | error err =>
          simp only [Evaluate, h1, h2]
          exact ⟨⟨ih2.1.1.trans ih1.1.1, ih2.1.2.trans ih1.1.2⟩,
            fun h => (ih2.2 (noAttr_binary h).2).trans (ih1.2 (noAttr_binary h).1)⟩
        | ok rv =>
          simp only [Evaluate, h1, h2]
          exact ⟨⟨ih2.1.1.trans ih1.1.1, ih2.1.2.trans ih1.1.2⟩,
            fun h => (ih2.2 (noAttr_binary h).2).trans (ih1.2 (noAttr_binary h).1)⟩
    | unary op operand =>
      rcases h1 : Evaluate fuel operand ctx with ⟨c1, r1⟩
      have ih1 := ih operand ctx
      rw [h1] at ih1
      cases r1 with
      | error err =>
        simp only [Evaluate, h1]
        exact ⟨ih1.1, fun h => ih1.2 (noAttr_unary h)⟩
      | ok v =>
        simp only [Evaluate, h1]
        exact ⟨ih1.1, fun h => ih1.2 (noAttr_unary h)⟩
    | attribution value vars =>
      rcases h1 : Evaluate fuel value ctx with ⟨c1, r1⟩
      have ih1 := ih value ctx
      rw [h1] at ih1
      cases r1 with
      | error err =>
        simp only [Evaluate, h1]
        exact ⟨ih1.1, fun h => (noAttr_attribution h).elim⟩
      | ok v =>
        have hb := attributionBind_frame vars v c1
        simp only [Evaluate, h1]
        exact ⟨⟨hb.1.trans ih1.1.1, hb.2.trans ih1.1.2⟩,
          fun h => (noAttr_attribution h).elim⟩
    | table isArray array dict =>
      cases isArray with
      | true =>
        rcases h1 : evalList fuel array ctx with ⟨c1, r1⟩
        have hL1 := hL array ctx
        rw [h1] at hL1
        cases r1 with
        | error err =>
          simp only [Evaluate, h1, if_true]
          exact ⟨hL1.1, fun h => hL1.2 (noAttr_table h).1⟩
        | ok vs =>
          simp only [Evaluate, h1, if_true]
          exact ⟨hL1.1, fun h => hL1.2 (noAttr_table h).1⟩
      | false =>
        rcases h1 : evalPairs fuel dict ctx with ⟨c1, r1⟩
        have hP1 := hP dict ctx
        rw [h1] at hP1
        cases r1 with
        | error err =>
          simp only [Evaluate, h1, if_false, Bool.false_eq_true]
          exact ⟨hP1.1, fun h => hP1.2 (noAttr_table h).2⟩
        | ok vs =>
          simp only [Evaluate, h1, if_false, Bool.false_eq_true]
          exact ⟨hP1.1, fun h => hP1.2 (noAttr_table h).2⟩
    | funcCall target name args =>
      cases target with
      | none =>
        rcases h1 : evalList fuel args ctx with ⟨c1, r1⟩
        have hL1 := hL args ctx
        rw [h1] at hL1
        cases r1 with
        | error err =>
          simp only [Evaluate, h1]
          exact ⟨hL1.1, fun h => hL1.2 (noAttr_funcCallNone h)⟩
        | ok argVals =>
          have hcb := callBuiltin_frame name .nilV argVals c1
          simp only [Evaluate, h1]
          exact ⟨⟨hcb.1.trans hL1.1.1, hcb.2.1.trans hL1.1.2⟩,
            fun h => hcb.2.2.trans (hL1.2 (noAttr_funcCallNone h))⟩
      | some t =>
        rcases h1 : Evaluate fuel t ctx with ⟨c1, r1⟩
        have ih1 := ih t ctx
        rw [h1] at ih1
        cases r1 with
        | error err =>
          simp only [Evaluate, h1]
          exact ⟨ih1.1, fun h => ih1.2 (noAttr_funcCallSome h).1⟩
        | ok tv =>
          rcases h2 : evalList fuel args c1 with ⟨c2, r2⟩
          have hL1 := hL args c1
          rw [h2] at hL1
          cases r2 with
          | error err =>
            simp only [Evaluate, h1, h2]
            exact ⟨⟨hL1.1.1.trans ih1.1.1, hL1.1.2.trans ih1.1.2⟩,
              fun h => (hL1.2 (noAttr_funcCallSome h).2).trans
                (ih1.2 (noAttr_funcCallSome h).1)⟩
          | ok argVals =>
            have hcb := callBuiltin_frame name tv argVals c2
            simp only [Evaluate, h1, h2]
            exact ⟨⟨hcb.1.trans (hL1.1.1.trans ih1.1.1),
                hcb.2.1.trans (hL1.1.2.trans ih1.1.2)⟩,
              fun h => hcb.2.2.trans ((hL1.2 (noAttr_funcCallSome h).2).trans
                (ih1.2 (noAttr_funcCallSome h).1))⟩

/-- C9: for every expression tree containing no attribution node and
every execution context, evaluation leaves the context's variables map
unchanged; and no evaluation whatsoever (attributions included) writes
the call count or the request. -/
theorem c9_no_attribution_frame (fuel : Nat) (e : Expr)
    (ctx : ExecutionContext) :
    ((Evaluate fuel e ctx).1.CallCount = ctx.CallCount
      ∧ (Evaluate fuel e ctx).1.Request = ctx.Request)
    ∧ (NoAttr e → (Evaluate fuel e ctx).1.Variables = ctx.Variables) :=
  eval_frame fuel e ctx

/-- C9 witness: the attribution-free condition `call_count > 3`
evaluated in the sample context with call count `5` leaves all three
context components unchanged. -/
theorem c9_witness :
    (Evaluate 2 (.binary (.varRef "call_count" []) ">"
        (.num (GoFloat.ofInt 3))) ctxCall5).1.Variables = ctxCall5.Variables
    ∧ (Evaluate 2 (.binary (.varRef "call_count" []) ">"
        (.num (GoFloat.ofInt 3))) ctxCall5).1.CallCount = ctxCall5.CallCount
    ∧ (Evaluate 2 (.binary (.varRef "call_count" []) ">"
        (.num (GoFloat.ofInt 3))) ctxCall5).1.Request = ctxCall5.Request := by
  have h := c9_no_attribution_frame 2
    (.binary (.varRef "call_count" []) ">" (.num (GoFloat.ofInt 3))) ctxCall5
  exact ⟨h.2 (NoAttr.binary _ _ _ (NoAttr.varRef _ _) (NoAttr.num _)),
    h.1.1, h.1.2⟩

/-- Unfolding one cons cell of an association-list lookup. -/
theorem lookup_cons {α : Type} (k a : String) (b : α) (l : List (String × α)) :
    List.lookup k ((a, b) :: l) = if k = a then some b else List.lookup k l := by
  by_cases h : k = a
  · subst h
    simp [List.lookup]
  · simp only [List.lookup, beq_eq_false_iff_ne.mpr h, if_neg h]

/-- Looking a key up after a map assignment: the assigned key reads the
new value, every other key is untouched. -/
theorem lookup_setAssoc {α : Type} (m : List (String × α)) (k k' : String)
    (v : α) :
    (setAssoc m k v).lookup k' = if k' = k then some v else m.lookup k' := by
  induction m with
  | nil => simp only [setAssoc, lookup_cons]
  | cons p rest ih =>
    rcases p with ⟨a, b⟩
    simp only [setAssoc]
    by_cases hak : a = k
    · rw [if_pos hak]
      by_cases h : k' = k
      · simp [lookup_cons, h]
      · have h2 : k' ≠ a := fun hh => h (hh.trans hak)
        simp [lookup_cons, h, h2]
    · rw [if_neg hak]
      by_cases h' : k' = a
      · have hkk : k' ≠ k := fun hh => hak (h'.symm.trans hh)
        simp [lookup_cons, h', hkk, hak]
      · simp [lookup_cons, h', ih]

/-- Lookup after dictionary destructuring: a destructured variable
reads its dictionary entry when one exists and keeps its previous
binding otherwise; every other key is untouched. -/
theorem bindDict_lookup (d : List (String × Value)) :
    ∀ (vars : List String) (m : List (String × Value)) (x : String),
      (bindDict m vars d).lookup x
        = if x ∈ vars then ((d.lookup x).or (m.lookup x)) else m.lookup x := by
  intro vars
  induction vars with
  | nil => intro m x; simp [bindDict]
  | cons y vs ih =>
    intro m x
    simp only [bindDict]
    rcases hdy : d.lookup y with _ | u
    · rw [ih m x]
      by_cases hx : x ∈ vs
      · simp [hx]
      · by_cases hxy : x = y
        · subst hxy
          simp [hx, hdy]
        · simp [hx, hxy]
    · rw [ih (setAssoc m y u) x]
      by_cases hx : x ∈ vs
      · rcases hdx : d.lookup x with _ | w
        · have hxy : x ≠ y := by
            intro h
            rw [h, hdy] at hdx
            cases hdx
          simp [hx, hdx, lookup_setAssoc, hxy]
        · simp [hx, hdx]
      · by_cases hxy : x = y
        · subst hxy
          simp [hx, lookup_setAssoc, hdy]
        · simp [hx, hxy, lookup_setAssoc]

/-- Positional destructuring touches only the destructured variable
names. -/
theorem bindArr_lookup_notMem :
    ∀ (vars : List String) (xs : List Value) (m : List (String × Value))
      (x : String), x ∉ vars → (bindArr m vars xs).lookup x = m.lookup x := by
  intro vars
  induction vars with
  | nil => intro xs m x hx; cases xs <;> simp [bindArr]
  | cons v vs ih =>
    intro xs m x hx
    cases xs with
    | nil => simp [bindArr]
    | cons u us =>
      simp only [bindArr]
      rw [ih us (setAssoc m v u) x (fun h => hx (by simp [h]))]
      rw [lookup_setAssoc]
      have hxv : x ≠ v := fun h => hx (by simp [h])
      simp [hxv]

/-- Lookup after positional destructuring (distinct variable names):
the variable at position `i` reads the sequence element at position `i`
when the sequence is long enough, and keeps its previous binding
otherwise. -/
theorem bindArr_lookup_get :
    ∀ (vars : List String) (xs : List Value) (m : List (String × Value))
      (i : Nat) (x : String), vars.Nodup → vars.get? i = some x →
      (bindArr m vars xs).lookup x = ((xs.get? i).or (m.lookup x)) := by
  intro vars
  induction vars with
  | nil => intro xs m i x _ h; simp at h
  | cons v vs ih =>
    intro xs m i x hnd hget
    have hv : v ∉ vs := (List.nodup_cons.mp hnd).1
    have hnd' : vs.Nodup := (List.nodup_cons.mp hnd).2
    cases xs with
    | nil =>
      have hb : (bindArr m (v :: vs) []).lookup x = m.lookup x := by
        simp [bindArr]
      rw [hb]
      simp
    | cons u us =>
      cases i with
      | zero =>
        have hvx : v = x := by
          simpa using hget
        subst hvx
        simp only [bindArr]
        rw [bindArr_lookup_notMem vs us (setAssoc m v u) v hv]
        rw [lookup_setAssoc]
        simp
      | succ j =>
        have hget' : vs.get? j = some x := by
          simpa using hget
        simp only [bindArr]
        rw [ih us (setAssoc m v u) j x hnd' hget']
        have hxv : x ≠ v := by
          intro h
          exact hv (h ▸ List.get?_mem hget')
        rw [lookup_setAssoc, if_neg hxv]
        simp

/-- C6: attribution/destructuring semantics.  Once `v` evaluates to a
value, `v >> x` stores that value verbatim under `x`; with two or more
variables a dictionary value binds each variable to the entry of the
same name (variables with no matching key keep their previous binding),
a sequence binds positionally (variables beyond the sequence length
keep their previous binding), and every other value shape is the
destructuring error; a successful attribution always evaluates to the
assigned value. -/
theorem c6_attribution_semantics (fuel : Nat) (e : Expr)
    (ctx ctx' : ExecutionContext) (v : Value)
    (hEval : Evaluate fuel e ctx = (ctx', .ok v)) :
    (∀ x, Evaluate (fuel + 1) (.attribution e [x]) ctx
        = ({ ctx' with Variables := setAssoc ctx'.Variables x v }, .ok v))
    ∧ (∀ vars ctx'' w,
        Evaluate (fuel + 1) (.attribution e vars) ctx = (ctx'', .ok w) → w = v)
    ∧ (∀ vars d, v = .dict d → 2 ≤ vars.length →
        (Evaluate (fuel + 1) (.attribution e vars) ctx).2 = .ok v
        ∧ ∀ x, ((Evaluate (fuel + 1) (.attribution e vars) ctx).1.Variables.lookup x)
            = if x ∈ vars then ((d.lookup x).or (ctx'.Variables.lookup x))
              else ctx'.Variables.lookup x)
    ∧ (∀ vars xs, v = .arr xs → 2 ≤ vars.length → vars.Nodup →
        (Evaluate (fuel + 1) (.attribution e vars) ctx).2 = .ok v
        ∧ (∀ i x, vars.get? i = some x →
            ((Evaluate (fuel + 1) (.attribution e vars) ctx).1.Variables.lookup x)
              = ((xs.get? i).or (ctx'.Variables.lookup x)))
        ∧ (∀ x, x ∉ vars →
            ((Evaluate (fuel + 1) (.attribution e vars) ctx).1.Variables.lookup x)
              = ctx'.Variables.lookup x)) 
    ∧ (∀ vars, 2 ≤ vars.length → isDestructurable v = false →
        Evaluate (fuel + 1) (.attribution e vars) ctx
          = (ctx', .error ("cannot destructure value of type " ++ goTypeName v))) := by
  refine ⟨?_, ?_, ?_, ?_, ?_⟩
  · intro x
    simp [Evaluate, hEval, attributionBind]
  · intro vars ctx'' w h
    simp only [Evaluate, hEval] at h
    unfold attributionBind at h
    rcases vars with _ | ⟨x, _ | ⟨y, t⟩⟩
    · cases v <;> simp_all
    · simp_all
    · cases v <;> simp_all
  · intro vars d hv hlen
    subst hv
    rcases vars with _ | ⟨x, _ | ⟨y, t⟩⟩
    · simp at hlen
    · simp at hlen
    · rw [show Evaluate (fuel + 1) (.attribution e (x :: y :: t)) ctx
          = ({ ctx' with Variables := bindDict ctx'.Variables (x :: y :: t) d },
             .ok (.dict d)) from by simp [Evaluate, hEval, attributionBind]]
      exact ⟨rfl, fun z => bindDict_lookup d (x :: y :: t) ctx'.Variables z⟩
  · intro vars xs hv hlen hnd
    subst hv
    rcases vars with _ | ⟨x, _ | ⟨y, t⟩⟩
    · simp at hlen
    · simp at hlen
    · rw [show Evaluate (fuel + 1) (.attribution e (x :: y :: t)) ctx
          = ({ ctx' with Variables := bindArr ctx'.Variables (x :: y :: t) xs },
             .ok (.arr xs)) from by simp [Evaluate, hEval, attributionBind]]
      exact ⟨rfl,
        fun i z hz => bindArr_lookup_get (x :: y :: t) xs ctx'.Variables i z hnd hz,
        fun z hz => bindArr_lookup_notMem (x :: y :: t) xs ctx'.Variables z hz⟩
  · intro vars hlen hshape
    rcases vars with _ | ⟨x, _ | ⟨y, t⟩⟩
    · simp at hlen
    · simp at hlen
    · simp only [Evaluate, hEval]
      unfold attributionBind
      cases v <;> simp_all [isDestructurable]

/-- C6 witness: in a context where `result` is the dictionary
`{"x":1,"y":2}`, `result >> x, y` binds `x=1` and `y=2`; where `result`
is the sequence `[1]`, `result >> a, b` binds `a=1` and leaves `b`
unbound; and where `result` is a string, `result >> a, b` is the
destructuring error. -/
theorem c6_witness :
    ((Evaluate 2 (.attribution (.varRef "result" []) ["x", "y"])
        (ctxWithResult (.dict [("x", .num (GoFloat.ofInt 1)),
          ("y", .num (GoFloat.ofInt 2))]))).1.Variables.lookup "x"
      = some (.num (GoFloat.ofInt 1)))
    ∧ ((Evaluate 2 (.attribution (.varRef "result" []) ["x", "y"])
        (ctxWithResult (.dict [("x", .num (GoFloat.ofInt 1)),
          ("y", .num (GoFloat.ofInt 2))]))).1.Variables.lookup "y"
      = some (.num (GoFloat.ofInt 2)))
    ∧ ((Evaluate 2 (.attribution (.varRef "result" []) ["a", "b"])
        (ctxWithResult (.arr [.num (GoFloat.ofInt 1)]))).1.Variables.lookup "a"
      = some (.num (GoFloat.ofInt 1)))
    ∧ ((Evaluate 2 (.attribution (.varRef "result" []) ["a", "b"])
        (ctxWithResult (.arr [.num (GoFloat.ofInt 1)]))).1.Variables.lookup "b"
      = none)
    ∧ (Evaluate 2 (.attribution (.varRef "result" []) ["a", "b"])
        (ctxWithResult (.str "s"))
      = (ctxWithResult (.str "s"),
         .error "cannot destructure value of type string")) := by
  have hd := c6_attribution_semantics 1 (.varRef "result" [])
    (ctxWithResult (.dict [("x", .num (GoFloat.ofInt 1)),
      ("y", .num (GoFloat.ofInt 2))]))
    (ctxWithResult (.dict [("x", .num (GoFloat.ofInt 1)),
      ("y", .num (GoFloat.ofInt 2))]))
    (.dict [("x", .num (GoFloat.ofInt 1)), ("y", .num (GoFloat.ofInt 2))]) rfl
  have ha := c6_attribution_semantics 1 (.varRef "result" [])
    (ctxWithResult (.arr [.num (GoFloat.ofInt 1)]))
    (ctxWithResult (.arr [.num (GoFloat.ofInt 1)]))
    (.arr [.num (GoFloat.ofInt 1)]) rfl
  have hs := c6_attribution_semantics 1 (.varRef "result" [])
    (ctxWithResult (.str "s")) (ctxWithResult (.str "s")) (.str "s") rfl
  have hd2 := (hd.2.2.1 ["x", "y"] _ rfl (by norm_num)).2
  have ha2 := ha.2.2.2.1 ["a", "b"] [.num (GoFloat.ofInt 1)] rfl (by norm_num)
    (by simp)
  refine ⟨?_, ?_, ?_, ?_, ?_⟩
  · simpa [ctxWithResult, lookup_cons] using hd2 "x"
  · simpa [ctxWithResult, lookup_cons] using hd2 "y"
  · simpa [ctxWithResult, lookup_cons] using ha2.2.1 0 "a" rfl
  · simpa [ctxWithResult, lookup_cons] using ha2.2.1 1 "b" rfl
  · exact hs.2.2.2.2 ["a", "b"] (by norm_num) rfl

end Anansi
